import Mathlib

/-!
Verification development for the dbfreader CLI (cmd/dbfreader/main.go):
a shallow embedding of its argument parsing, decoder selection, CSV export
pipeline and per-type value formatting, with theorems checking the
specification's claims against this embedding.

Modelling conventions:
* Go machine values: float64 record values are modelled as exact rationals,
  int64 as unbounded Int (no claim here depends on overflow or on binary
  rounding of floats).
* The external go-foxpro-dbf reader is a collaborator: a DBF is modelled by
  its observable behavior (the field descriptor list plus the outcome of
  RecordAt for each index), and the library cast helpers are modelled from
  the spec.
* Effects: the CSV sink is modelled by the error outcome of each Write call
  in order; the state of an export (rows written, log lines, counters) is
  passed explicitly. A Go panic from out-of-range indexing is modelled as a
  distinguished error outcome.
-/

namespace DbfReader

/-- Decimal digit character for a digit value (values above nine collapse to
the last arm; callers only pass remainders mod ten). -/
def digitChar (d : Nat) : Char :=
  match d with
  | 0 => '0'
  | 1 => '1'
  | 2 => '2'
  | 3 => '3'
  | 4 => '4'
  | 5 => '5'
  | 6 => '6'
  | 7 => '7'
  | 8 => '8'
  | _ => '9'

/-- Decimal digit characters of a natural number, most significant first.
Models the digit rendering inside Go strconv formatting. -/
def natDecChars (n : Nat) : List Char :=
  if _h : n < 10 then [digitChar n]
  else natDecChars (n / 10) ++ [digitChar (n % 10)]
termination_by n
decreasing_by exact Nat.div_lt_self (by omega) (by omega)

/-- Exactly prec decimal digits of fp (taken mod 10 ^ prec), most
significant first: the fractional digit block of fixed-point formatting. -/
def fracDigits (fp prec : Nat) : List Char :=
  (List.range prec).map (fun i => digitChar (fp / 10 ^ (prec - 1 - i) % 10))

/-- Floor of a rational as an integer (floor division of numerator by
denominator). -/
def ratFloor (q : ℚ) : Int := Int.fdiv q.num q.den

/-- Models Go strconv.FormatFloat(x, 102, prec, 64) for prec at least 0:
fixed-point decimal with exactly prec digits after the point (sign, integer
part, point, fraction block). The value is modelled as an exact rational;
rounding is to nearest via floor of the scaled value plus one half. -/
def formatFloatFixed (q : ℚ) (prec : Nat) : String :=
  let scaled : Int := ratFloor (q * (10 : ℚ) ^ prec + 1 / 2)
  let n : Nat := scaled.natAbs
  let ip : Nat := n / 10 ^ prec
  let fp : Nat := n % 10 ^ prec
  let sign : List Char := if scaled < 0 then ['-'] else []
  if prec = 0 then String.mk (sign ++ natDecChars ip)
  else String.mk (sign ++ (natDecChars ip ++ '.' :: fracDigits fp prec))

/-- Models Go strconv.FormatFloat(x, 102, -1, 64) (shortest round-trip
form) on the rational model: render at a high fixed precision and strip
trailing zeros and a trailing point. -/
def formatFloatShortest (q : ℚ) : String :=
  let rev := (formatFloatFixed q 17).toList.reverse
  let rev2 := rev.dropWhile (fun c => c = '0')
  let rev3 := match rev2 with
    | '.' :: rest => rest
    | l => l
  String.mk rev3.reverse

/-- Models Go strconv.FormatInt(n, 10): decimal digits with a leading minus
sign for negative values. -/
def formatInt (n : Int) : String :=
  if n < 0 then String.mk ('-' :: natDecChars n.natAbs)
  else String.mk (natDecChars n.natAbs)

/-- Modelled from the spec: the timestamp values produced by the external
reader (not under src/), reduced to the calendar fields the formatting
paths observe. -/
structure GoTime where
  year : Nat
  month : Nat
  day : Nat
  hour : Nat
  minute : Nat
  second : Nat
deriving DecidableEq

/-- The Go zero time: January 1 of year 1, midnight. -/
def zeroGoTime : GoTime := { year := 1, month := 1, day := 1, hour := 0, minute := 0, second := 0 }

/-- Models Go time.Time.IsZero: true exactly on the zero time. -/
def GoTime.isZero (t : GoTime) : Bool := decide (t = zeroGoTime)

/-- Decimal digits of n left-padded with zeros to width w (kept longer if n
needs more digits), as in Go reference-layout formatting. -/
def padNat (w n : Nat) : List Char :=
  List.replicate (w - (natDecChars n).length) '0' ++ natDecChars n

/-- Models t.Format with layout 2006-01-02. -/
def formatDate (t : GoTime) : String :=
  String.mk (padNat 4 t.year ++ '-' :: (padNat 2 t.month ++ '-' :: padNat 2 t.day))

/-- Models t.Format with layout 2006-01-02 15:04:05. -/
def formatDateTime (t : GoTime) : String :=
  String.mk (padNat 4 t.year ++ '-' :: (padNat 2 t.month ++ '-' :: padNat 2 t.day) ++
    ' ' :: (padNat 2 t.hour ++ ':' :: (padNat 2 t.minute ++ ':' :: padNat 2 t.second)))

/-- Modelled from the spec: the untyped field value produced by the external
reader for one field of one record (text, integer, floating point, boolean,
timestamp, or nil). -/
inductive Value where
  | vnil
  | vstr (s : String)
  | vint (n : Int)
  | vfloat (q : ℚ)
  | vbool (b : Bool)
  | vtime (t : GoTime)
deriving DecidableEq

/-- Modelled from the spec: library cast helper dbf.ToTrimmedString (not
under src/) - text value with surrounding whitespace removed. -/
def ToTrimmedString : Value → String
  | Value.vstr s => s.trim
  | _ => ""

/-- Modelled from the spec: library cast helper dbf.ToString (not under
src/) - raw text content. -/
def ToStringRaw : Value → String
  | Value.vstr s => s
  | _ => ""

/-- Modelled from the spec: library cast helper dbf.ToInt64 (not under
src/). -/
def ToInt64 : Value → Int
  | Value.vint n => n
  | _ => 0

/-- Modelled from the spec: library cast helper dbf.ToFloat64 (not under
src/). -/
def ToFloat64 : Value → ℚ
  | Value.vfloat q => q
  | Value.vint n => (n : ℚ)
  | _ => 0

/-- Modelled from the spec: library cast helper dbf.ToBool (not under
src/). -/
def ToBool : Value → Bool
  | Value.vbool b => b
  | _ => false

/-- Modelled from the spec: library cast helper dbf.ToTime (not under
src/) - the zero time on non-timestamp values. -/
def ToTime : Value → GoTime
  | Value.vtime t => t
  | _ => zeroGoTime

/-- Models the fmt package verb percent-v on the modelled value universe,
used by the default arm of formatValueForCSV. -/
def sprintfV : Value → String
  | Value.vnil => "<nil>"
  | Value.vstr s => s
  | Value.vint n => formatInt n
  | Value.vfloat q => formatFloatShortest q
  | Value.vbool b => if b then "true" else "false"
  | Value.vtime t => formatDateTime t ++ " +0000 UTC"

/-- Field descriptor as observed by main.go: name, type tag string (the
library FieldType result), declared length and decimal scale. -/
structure FieldHeader where
  name : String
  fieldType : String
  len : Nat
  decimals : Nat
deriving DecidableEq

/-- Embedding of formatValueForCSV from cmd/dbfreader/main.go: the nil
check, then the switch on the field type tag. -/
def formatValueForCSV (value : Value) (field : FieldHeader) : String :=
  if value = Value.vnil then ""
  else if field.fieldType = "C" then ToTrimmedString value
  else if field.fieldType = "N" then
    if field.decimals = 0 then formatInt (ToInt64 value)
    else formatFloatFixed (ToFloat64 value) field.decimals
  else if field.fieldType = "F" then formatFloatShortest (ToFloat64 value)
  else if field.fieldType = "L" then (if ToBool value then "true" else "false")
  else if field.fieldType = "D" then
    (if (ToTime value).isZero then "" else formatDate (ToTime value))
  else if field.fieldType = "T" then
    (if (ToTime value).isZero then "" else formatDateTime (ToTime value))
  else if field.fieldType = "M" then ToStringRaw value
  else if field.fieldType = "I" then formatInt (ToInt64 value)
  else if field.fieldType = "B" then formatFloatShortest (ToFloat64 value)
  else if field.fieldType = "Y" then formatFloatFixed (ToFloat64 value) 4
  else sprintfV value

/-- The type tags the switch in formatValueForCSV recognizes explicitly. -/
def knownTags : List String := ["C", "N", "F", "L", "D", "T", "M", "I", "B", "Y"]

/-- Number of point characters in a string. -/
def dotCount (s : String) : Nat := s.toList.count '.'

/-- Characters after the last point character of a string (in order). -/
def fracPart (s : String) : List Char :=
  (s.toList.reverse.takeWhile (fun c => c != '.')).reverse

/-- One materialized record: the deletion flag plus the FieldSlice value
sequence, as main.go observes it. -/
structure Record where
  deleted : Bool
  fieldSlice : List Value
deriving DecidableEq

/-- Observable behavior of an opened DBF source: the schema descriptor list
and, for each index below the record count, the outcome of RecordAt. -/
structure DBF where
  fields : List FieldHeader
  recs : List (Except String Record)

/-- Models d.NumRecords(). -/
def numRecords (d : DBF) : Nat := d.recs.length

/-- Models d.FieldNames(): ordered field name list. -/
def fieldNames (d : DBF) : List String := d.fields.map FieldHeader.name

/-- Behavior of the CSV sink: the error outcome of the n-th Write call
(counting the header as call zero); none means the write succeeds. -/
structure Sink where
  writeErr : Nat → Option String

/-- Mutable state of one export run: rows in the sink so far, the
processedRecords counter, log lines emitted for fetch failures, and the
number of Write calls made. -/
structure ExportState where
  written : List (List String)
  processed : Nat
  logs : List (Nat × String)
  writeCalls : Nat
deriving DecidableEq

/-- Exit of exportToCSV distinguishing the error sources: header write
failure, row write failure (with the record index), or the runtime panic
from out-of-range descriptor indexing. -/
inductive ExportErr where
  | headerWrite (e : String)
  | rowWrite (i : Nat) (e : String)
  | panicIndexOutOfRange
deriving DecidableEq

/-- Row construction of the export loop: csvRow j is formatValueForCSV of
value j with descriptor j; none models the Go index-out-of-range panic when
the descriptor list is too short. -/
def buildRowAux (fields : List FieldHeader) : List Value → Nat → Option (List String)
  | [], _ => some []
  | v :: vs, j =>
    match fields[j]? with
    | none => none
    | some f =>
      match buildRowAux fields vs (j + 1) with
      | none => none
      | some rest => some (formatValueForCSV v f :: rest)

/-- Builds the export row for one record (positional pairing from index
zero). -/
def buildRow (fields : List FieldHeader) (vals : List Value) : Option (List String) :=
  buildRowAux fields vals 0

/-- Embedding of the record loop of exportToCSV: fetch failure is logged
(unless silent) and skipped; a deleted record is skipped silently; else the
row is built and written, aborting on a write failure. -/
def exportLoop (fields : List FieldHeader) (sink : Sink) (silent : Bool) :
    List (Except String Record) → Nat → ExportState → ExportState × Option ExportErr
  | [], _, st => (st, none)
  | Except.error e :: rest, i, st =>
      exportLoop fields sink silent rest (i + 1)
        { st with logs := st.logs ++ (if silent then [] else [(i, e)]) }
  | Except.ok r :: rest, i, st =>
      if r.deleted then exportLoop fields sink silent rest (i + 1) st
      else
        match buildRow fields r.fieldSlice with
        | none => (st, some ExportErr.panicIndexOutOfRange)
        | some row =>
          match sink.writeErr st.writeCalls with
          | some e => (st, some (ExportErr.rowWrite i e))
          | none =>
              exportLoop fields sink silent rest (i + 1)
                { st with written := st.written ++ [row],
                          processed := st.processed + 1,
                          writeCalls := st.writeCalls + 1 }

/-- Embedding of exportToCSV from cmd/dbfreader/main.go: write the header
row of field names (fatal on failure), then run the record loop. The Go
function returns only the second component; the state records the sink
contents and counters for the theorems. -/
def exportToCSV (d : DBF) (sink : Sink) (silent : Bool) :
    ExportState × Option ExportErr :=
  match sink.writeErr 0 with
  | some e =>
      ({ written := [], processed := 0, logs := [], writeCalls := 0 },
       some (ExportErr.headerWrite e))
  | none =>
      exportLoop d.fields sink silent d.recs 0
        { written := [fieldNames d], processed := 0, logs := [], writeCalls := 1 }

/-- The count main.go reports in its success message after export: it
prints d.NumRecords(), the total source record count. -/
def mainSuccessCount (d : DBF) : Nat := numRecords d

/-- The three option values tracked by the argument loop in main. -/
structure Args where
  encoding : String
  csvOutput : String
  noDisplay : Bool
deriving DecidableEq

/-- Scan of the reversed path for filepath.Ext: walk from the last
character toward the front, stop empty at a separator, and return the
extension (point included) at the first point found. -/
def filepathExtAux : List Char → List Char → List Char
  | [], _ => []
  | c :: cs, acc =>
    if c = '/' then []
    else if c = '.' then '.' :: acc
    else filepathExtAux cs (c :: acc)

/-- Models filepath.Ext: suffix from the final point in the final
separator-delimited element; empty when there is none. -/
def filepathExt (path : String) : String :=
  String.mk (filepathExtAux path.toList.reverse [])

/-- Models strings.HasPrefix on the character-list view of strings. -/
def hasPre (s p : String) : Bool := p.toList.isPrefixOf s.toList

/-- Models strings.HasSuffix on the character-list view of strings. -/
def hasSuffix (s p : String) : Bool := p.toList.isSuffixOf s.toList

/-- Models strings.TrimSuffix. -/
def trimSuffix (s suffix : String) : String :=
  if hasSuffix s suffix then
    String.mk (s.toList.take (s.toList.length - suffix.toList.length))
  else s

/-- Models strings.TrimPrefix. -/
def trimPre (s p : String) : String :=
  if hasPre s p then String.mk (s.toList.drop p.toList.length) else s

/-- Embedding of the argument loop of main (indices from 2 over os.Args):
the csv options, the no-display flag, and the positional encoding taken
only at index 2 when it does not begin with two dashes. -/
def parseArgsLoop (dbfFile : String) : List String → Nat → Args → Args
  | [], _, acc => acc
  | arg :: rest, i, acc =>
    let acc2 :=
      if hasPre arg "--csv" then
        if arg = "--csv" then
          { acc with csvOutput := trimSuffix dbfFile (filepathExt dbfFile) ++ ".csv" }
        else if hasPre arg "--csv=" then
          { acc with csvOutput := trimPre arg "--csv=" }
        else acc
      else if arg = "--no-display" then { acc with noDisplay := true }
      else if i = 2 ∧ hasPre arg "--" = false then { acc with encoding := arg.toLower }
      else acc
    parseArgsLoop dbfFile rest (i + 1) acc2

/-- Argument parsing of main: dbfFile is os.Args at index 1, extraArgs is
os.Args from index 2 on; the encoding variable is initialized to big5. -/
def parseArgs (dbfFile : String) (extraArgs : List String) : Args :=
  parseArgsLoop dbfFile extraArgs 2
    { encoding := "big5", csvOutput := "", noDisplay := false }

/-- The three decoder implementations the switch in main can select. -/
inductive Decoder where
  | big5
  | utf8
  | win1250
deriving DecidableEq

/-- Embedding of the decoder switch in main: the decoder chosen for the
encoding string, plus whether the unsupported-encoding warning fires. -/
def selectDecoder (encoding : String) : Decoder × Bool :=
  if encoding = "big5" then (Decoder.big5, false)
  else if encoding = "utf8" then (Decoder.utf8, false)
  else if encoding = "win1250" then (Decoder.win1250, false)
  else (Decoder.win1250, true)

/-- The guard on line 89 of main: CSV export is attempted exactly when the
csvOutput string is nonempty. -/
def csvRequested (a : Args) : Bool := a.csvOutput != ""

/-- A RecordAt outcome that yields a row: fetched and not deleted. -/
def isLive : Except String Record → Bool
  | Except.ok r => !r.deleted
  | Except.error _ => false

/-- A RecordAt outcome that is fetched but flagged deleted. -/
def isDeleted : Except String Record → Bool
  | Except.ok r => r.deleted
  | Except.error _ => false

/-- A RecordAt outcome that is a fetch failure. -/
def isFetchErr : Except String Record → Bool
  | Except.ok _ => false
  | Except.error _ => true

/-! Concrete fixtures used by the witness and counterexample theorems. -/

/-- A sink whose writes always succeed. -/
def sinkAllOk : Sink := { writeErr := fun _ => none }

/-- A sink whose very first write call (the header) fails. -/
def sinkFailHeader : Sink := { writeErr := fun _ => some "disk full" }

/-- A sink where only the header write succeeds. -/
def sinkFailRow1 : Sink := { writeErr := fun n => if n = 0 then none else some "disk full" }

/-- An integer field descriptor. -/
def fldI : FieldHeader := { name := "A", fieldType := "I", len := 4, decimals := 0 }

/-- A live one-field record. -/
def recLive1 : Record := { deleted := false, fieldSlice := [Value.vint 1] }

/-- Another live one-field record. -/
def recLive2 : Record := { deleted := false, fieldSlice := [Value.vint 2] }

/-- A deleted one-field record. -/
def recDel : Record := { deleted := true, fieldSlice := [Value.vint 3] }

/-- Source whose single record is deleted. -/
def dbfOneDeleted : DBF := { fields := [fldI], recs := [Except.ok recDel] }

/-- Source with a live record, a fetch failure, and a deleted record. -/
def dbfOneBad : DBF :=
  { fields := [fldI],
    recs := [Except.ok recLive1, Except.error "corrupt", Except.ok recDel] }

/-- Source with two live records. -/
def dbfTwoLive : DBF :=
  { fields := [fldI], recs := [Except.ok recLive1, Except.ok recLive2] }

/-- Numeric field descriptor at declared scale three. -/
def fldN3 : FieldHeader := { name := "AMT", fieldType := "N", len := 10, decimals := 3 }

/-- A floating-point field value. -/
def valF : Value := Value.vfloat (123 / 10)

/-- Date field descriptor. -/
def fldD : FieldHeader := { name := "DT", fieldType := "D", len := 8, decimals := 0 }

/-- A concrete non-zero date. -/
def tMar7 : GoTime := { year := 2024, month := 3, day := 7, hour := 0, minute := 0, second := 0 }

/-- Descriptor with a type tag the formatter switch does not recognize. -/
def fldZ : FieldHeader := { name := "Z", fieldType := "Z", len := 1, decimals := 0 }

/-- Loop state right after a successful header write for a one-field schema. -/
def stHeaderOnlyA : ExportState :=
  { written := [["A"]], processed := 0, logs := [], writeCalls := 1 }

/-! Helper lemmas: decimal digit strings. -/

lemma digitChar_isDigit (d : Nat) : (digitChar d).isDigit = true := by
  rcases d with _ | _ | _ | _ | _ | _ | _ | _ | _ | _ <;> rfl

lemma isDigit_ne_dot {c : Char} (h : c.isDigit = true) : c ≠ '.' := by
  intro hc
  subst hc
  exact absurd h (by decide)

lemma natDecChars_digits (n : Nat) : ∀ c ∈ natDecChars n, c.isDigit = true := by
  induction n using Nat.strong_induction_on with
  | _ n ih =>
    intro c hc
    unfold natDecChars at hc
    split at hc
    · rcases List.mem_singleton.mp hc with rfl
      exact digitChar_isDigit n
    · rcases List.mem_append.mp hc with h | h
      · exact ih (n / 10) (Nat.div_lt_self (by omega) (by omega)) c h
      · rcases List.mem_singleton.mp h with rfl
        exact digitChar_isDigit (n % 10)

lemma natDecChars_len_le : ∀ (w n : Nat), n < 10 ^ w → 0 < w → (natDecChars n).length ≤ w := by
  intro w
  induction w with
  | zero => intro n _ hw; omega
  | succ w ih =>
    intro n hn _
    unfold natDecChars
    split
    · simp
    · rename_i h10
      have hw : 0 < w := by
        by_contra hw0
        have : w = 0 := by omega
        subst this
        simp at hn
        omega
      have hdiv : n / 10 < 10 ^ w := by
        apply Nat.div_lt_of_lt_mul
        calc n < 10 ^ (w + 1) := hn
          _ = 10 * 10 ^ w := by ring
      have := ih (n / 10) hdiv hw
      simp only [List.length_append, List.length_cons, List.length_nil]
      omega

lemma fracDigits_length (fp prec : Nat) : (fracDigits fp prec).length = prec := by
  simp [fracDigits]

lemma fracDigits_digits (fp prec : Nat) : ∀ c ∈ fracDigits fp prec, c.isDigit = true := by
  intro c hc
  simp only [fracDigits, List.mem_map] at hc
  obtain ⟨i, _, rfl⟩ := hc
  exact digitChar_isDigit _

lemma toList_mk (l : List Char) : (String.mk l).toList = l := rfl

lemma length_mk (l : List Char) : (String.mk l).length = l.length := rfl

lemma takeWhile_append_cons {α : Type} (p : α → Bool) (l1 l2 : List α) (x : α)
    (h1 : ∀ c ∈ l1, p c = true) (hx : p x = false) :
    (l1 ++ x :: l2).takeWhile p = l1 := by
  induction l1 with
  | nil => simp [List.takeWhile, hx]
  | cons a l ih =>
    have ha : p a = true := h1 a (List.mem_cons_self a l)
    simp only [List.cons_append, List.takeWhile, ha, List.append_eq]
    rw [ih (fun c hc => h1 c (List.mem_cons_of_mem a hc))]

lemma shape_of_parts (sign ip frac : List Char)
    (hsign : '.' ∉ sign)
    (hip : ∀ c ∈ ip, c.isDigit = true)
    (hfrac : ∀ c ∈ frac, c.isDigit = true) :
    dotCount (String.mk (sign ++ (ip ++ '.' :: frac))) = 1 ∧
    fracPart (String.mk (sign ++ (ip ++ '.' :: frac))) = frac := by
  constructor
  · simp only [dotCount, toList_mk, List.count_append, List.count_cons_self]
    have hz1 : List.count '.' sign = 0 := List.count_eq_zero.mpr hsign
    have hz2 : List.count '.' ip = 0 :=
      List.count_eq_zero.mpr (fun hmem => isDigit_ne_dot (hip '.' hmem) rfl)
    have hz3 : List.count '.' frac = 0 :=
      List.count_eq_zero.mpr (fun hmem => isDigit_ne_dot (hfrac '.' hmem) rfl)
    omega
  · simp only [fracPart, toList_mk, List.reverse_append, List.reverse_cons]
    have harr : (frac.reverse ++ ['.']) ++ ip.reverse ++ sign.reverse =
        frac.reverse ++ '.' :: (ip.reverse ++ sign.reverse) := by
      simp
    rw [harr, takeWhile_append_cons]
    · exact List.reverse_reverse frac
    · intro c hc
      have : c ∈ frac := List.mem_reverse.mp hc
      have hd := hfrac c this
      have : c ≠ '.' := isDigit_ne_dot hd
      simpa [bne_iff_ne] using this
    · decide

lemma formatFloatFixed_shape (q : ℚ) (prec : Nat) (h : 0 < prec) :
    dotCount (formatFloatFixed q prec) = 1 ∧
    (fracPart (formatFloatFixed q prec)).length = prec ∧
    ∀ c ∈ fracPart (formatFloatFixed q prec), c.isDigit = true := by
  have hp : ¬ prec = 0 := by omega
  simp only [formatFloatFixed, if_neg hp]
  have hshape := shape_of_parts
    (if ratFloor (q * (10 : ℚ) ^ prec + 1 / 2) < 0 then ['-'] else [])
    (natDecChars ((ratFloor (q * (10 : ℚ) ^ prec + 1 / 2)).natAbs / 10 ^ prec))
    (fracDigits ((ratFloor (q * (10 : ℚ) ^ prec + 1 / 2)).natAbs % 10 ^ prec) prec)
    (by split <;> decide)
    (natDecChars_digits _)
    (fracDigits_digits _ _)
  refine ⟨hshape.1, ?_, ?_⟩
  · rw [hshape.2, fracDigits_length]
  · rw [hshape.2]
    exact fracDigits_digits _ _

lemma padNat_length {w n : Nat} (hn : n < 10 ^ w) (hw : 0 < w) :
    (padNat w n).length = w := by
  have := natDecChars_len_le w n hn hw
  simp only [padNat, List.length_append, List.length_replicate]
  omega

/-! Helper lemmas: row construction and the export loop. -/

lemma buildRowAux_total (fields : List FieldHeader) :
    ∀ (vals : List Value) (j : Nat), j + vals.length ≤ fields.length →
      ∃ row, buildRowAux fields vals j = some row ∧ row.length = vals.length := by
  intro vals
  induction vals with
  | nil => exact fun j _ => ⟨[], rfl, rfl⟩
  | cons v vs ih =>
    intro j hj
    have hjlt : j < fields.length := by simp at hj; omega
    have hget : fields[j]? = some fields[j] := List.getElem?_eq_getElem hjlt
    obtain ⟨rest, hrest, hlen⟩ := ih (j + 1) (by simp at hj ⊢; omega)
    refine ⟨formatValueForCSV v fields[j] :: rest, ?_, by simp [hlen]⟩
    simp [buildRowAux, hget, hrest]

lemma buildRow_isSome {fields : List FieldHeader} {vals : List Value}
    (h : vals.length = fields.length) : (buildRow fields vals).isSome = true := by
  obtain ⟨row, hrow, -⟩ := buildRowAux_total fields vals 0 (by omega)
  simp [buildRow, hrow]

lemma count_partition (recs : List (Except String Record)) :
    List.countP isLive recs + List.countP isDeleted recs +
      List.countP isFetchErr recs = recs.length := by
  induction recs with
  | nil => simp
  | cons x rest ih =>
    rcases x with e | r
    · simp only [List.countP_cons, isLive, isDeleted, isFetchErr, List.length_cons]
      simp
      omega
    · rcases hd : r.deleted with _ | _ <;>
      · simp only [List.countP_cons, isLive, isDeleted, isFetchErr, hd, List.length_cons]
        simp
        omega

lemma exportLoop_all_ok (fields : List FieldHeader) (sink : Sink) (silent : Bool)
    (hsink : ∀ n, sink.writeErr n = none) :
    ∀ (recs : List (Except String Record)) (i : Nat) (st : ExportState),
      (∀ r, Except.ok r ∈ recs → (buildRow fields r.fieldSlice).isSome = true) →
      (exportLoop fields sink silent recs i st).2 = none ∧
      (exportLoop fields sink silent recs i st).1.processed =
        st.processed + List.countP isLive recs ∧
      (exportLoop fields sink silent recs i st).1.written.length =
        st.written.length + List.countP isLive recs := by
  intro recs
  induction recs with
  | nil => intro i st _; simp [exportLoop]
  | cons x rest ih =>
    intro i st hrows
    have hrest : ∀ r, Except.ok r ∈ rest → (buildRow fields r.fieldSlice).isSome = true :=
      fun r hr => hrows r (List.mem_cons_of_mem x hr)
    rcases x with e | r
    · have := ih (i + 1)
        { st with logs := st.logs ++ (if silent then [] else [(i, e)]) } hrest
      simpa [exportLoop, List.countP_cons, isLive] using this
    · rcases hd : r.deleted with _ | _
      · have hsome := hrows r (List.mem_cons_self _ _)
        obtain ⟨row, hrow⟩ := Option.isSome_iff_exists.mp hsome
        have := ih (i + 1)
          { st with written := st.written ++ [row],
                    processed := st.processed + 1,
                    writeCalls := st.writeCalls + 1 } hrest
        simp only [exportLoop, hd, if_false, Bool.false_eq_true, hrow, hsink] at this ⊢
        simp only [List.countP_cons, isLive, hd, Bool.not_false, if_true]
        refine ⟨this.1, by rw [this.2.1]; omega, ?_⟩
        rw [this.2.2]
        simp
        omega
      · have := ih (i + 1) st hrest
        simp only [exportLoop, hd, if_true] at this ⊢
        simpa [List.countP_cons, isLive, hd] using this

lemma exportLoop_write_fail (fields : List FieldHeader) (sink : Sink) (silent : Bool)
    (m : Nat) (e : String)
    (hn : ∀ n, n < m → sink.writeErr n = none) (hm : sink.writeErr m = some e) :
    ∀ (recs : List (Except String Record)) (i : Nat) (st : ExportState),
      (∀ r, Except.ok r ∈ recs → (buildRow fields r.fieldSlice).isSome = true) →
      st.writeCalls ≤ m → m - st.writeCalls < List.countP isLive recs →
      ∃ k, (exportLoop fields sink silent recs i st).2 = some (ExportErr.rowWrite k e) ∧
        (exportLoop fields sink silent recs i st).1.written.length =
          st.written.length + (m - st.writeCalls) ∧
        (exportLoop fields sink silent recs i st).1.processed =
          st.processed + (m - st.writeCalls) := by
  intro recs
  induction recs with
  | nil =>
    intro i st _ _ hlt
    simp only [List.countP_nil] at hlt
    omega
  | cons x rest ih =>
    intro i st hrows hle hlt
    have hrest : ∀ r, Except.ok r ∈ rest → (buildRow fields r.fieldSlice).isSome = true :=
      fun r hr => hrows r (List.mem_cons_of_mem x hr)
    rcases x with er | r
    · simp only [List.countP_cons, isLive] at hlt
      have := ih (i + 1)
        { st with logs := st.logs ++ (if silent then [] else [(i, er)]) } hrest hle
        (by simpa using hlt)
      simpa [exportLoop] using this
    · rcases hd : r.deleted with _ | _
      · have hsome := hrows r (List.mem_cons_self _ _)
        obtain ⟨row, hrow⟩ := Option.isSome_iff_exists.mp hsome
        rcases Nat.eq_or_lt_of_le hle with heq | hltm
        · have hm2 : sink.writeErr st.writeCalls = some e := by rw [heq]; exact hm
          have hz : m - st.writeCalls = 0 := by omega
          refine ⟨i, ?_, ?_, ?_⟩
          · simp [exportLoop, hd, hrow, hm2]
          · simp [exportLoop, hd, hrow, hm2, hz]
          · simp [exportLoop, hd, hrow, hm2, hz]
        · have hnone : sink.writeErr st.writeCalls = none := hn st.writeCalls hltm
          simp [List.countP_cons, isLive, hd] at hlt
          have hle2 : st.writeCalls + 1 ≤ m := by omega
          have hlt2 : m - (st.writeCalls + 1) < List.countP isLive rest := by omega
          obtain ⟨k, hk1, hk2, hk3⟩ := ih (i + 1)
            { st with written := st.written ++ [row],
                      processed := st.processed + 1,
                      writeCalls := st.writeCalls + 1 } hrest hle2 hlt2
          simp only [List.length_append, List.length_cons, List.length_nil] at hk2 hk3
          refine ⟨k, ?_, ?_, ?_⟩
          · simpa [exportLoop, hd, hrow, hnone] using hk1
          · simp only [exportLoop, hd, if_false, Bool.false_eq_true, hrow, hnone]
            rw [hk2]
            omega
          · simp only [exportLoop, hd, if_false, Bool.false_eq_true, hrow, hnone]
            rw [hk3]
            omega
      · simp only [List.countP_cons, isLive, hd] at hlt
        have := ih (i + 1) st hrest hle (by simpa using hlt)
        simpa [exportLoop, hd] using this

lemma exportLoop_no_panic (fields : List FieldHeader) (sink : Sink) (silent : Bool) :
    ∀ (recs : List (Except String Record)) (i : Nat) (st : ExportState),
      (∀ r, Except.ok r ∈ recs → (buildRow fields r.fieldSlice).isSome = true) →
      (exportLoop fields sink silent recs i st).2 ≠ some ExportErr.panicIndexOutOfRange := by
  intro recs
  induction recs with
  | nil => intro i st _; simp [exportLoop]
  | cons x rest ih =>
    intro i st hrows
    have hrest : ∀ r, Except.ok r ∈ rest → (buildRow fields r.fieldSlice).isSome = true :=
      fun r hr => hrows r (List.mem_cons_of_mem x hr)
    rcases x with er | r
    · simpa [exportLoop] using ih (i + 1) _ hrest
    · rcases hd : r.deleted with _ | _
      · have hsome := hrows r (List.mem_cons_self _ _)
        obtain ⟨row, hrow⟩ := Option.isSome_iff_exists.mp hsome
        rcases hw : sink.writeErr st.writeCalls with _ | er2
        · simpa [exportLoop, hd, hrow, hw] using ih (i + 1) _ hrest
        · simp [exportLoop, hd, hrow, hw]
      · simpa [exportLoop, hd] using ih (i + 1) st hrest

lemma exportLoop_written_processed (fields : List FieldHeader) (sink : Sink) (silent : Bool) :
    ∀ (recs : List (Except String Record)) (i : Nat) (st : ExportState),
      (exportLoop fields sink silent recs i st).1.written.length + st.processed =
        st.written.length + (exportLoop fields sink silent recs i st).1.processed := by
  intro recs
  induction recs with
  | nil => intro i st; simp [exportLoop]
  | cons x rest ih =>
    intro i st
    rcases x with er | r
    · simpa [exportLoop] using ih (i + 1)
        { st with logs := st.logs ++ (if silent then [] else [(i, er)]) }
    · rcases hd : r.deleted with _ | _
      · rcases hrow : buildRow fields r.fieldSlice with _ | row
        · simp [exportLoop, hd, hrow]
        · rcases hw : sink.writeErr st.writeCalls with _ | er2
          · have := ih (i + 1)
              { st with written := st.written ++ [row],
                        processed := st.processed + 1,
                        writeCalls := st.writeCalls + 1 }
            simp only [exportLoop, hd, if_false, Bool.false_eq_true, hrow, hw]
            simp only [List.length_append, List.length_cons, List.length_nil] at this
            omega
          · simp [exportLoop, hd, hrow, hw]
      · simpa [exportLoop, hd] using ih (i + 1) st

lemma parseArgsLoop_keeps_empty (dbfFile : String) :
    ∀ (args : List String) (i : Nat) (acc : Args),
      acc.csvOutput = "" →
      (∀ arg ∈ args, arg ≠ "--csv" ∧ (hasPre arg "--csv=" = true → arg = "--csv=")) →
      (parseArgsLoop dbfFile args i acc).csvOutput = "" := by
  intro args
  induction args with
  | nil => intro i acc hacc _; simpa [parseArgsLoop] using hacc
  | cons arg rest ih =>
    intro i acc hacc hargs
    obtain ⟨hne, himp⟩ := hargs arg (List.mem_cons_self _ _)
    have hrest := fun a ha => hargs a (List.mem_cons_of_mem arg ha)
    simp only [parseArgsLoop]
    apply ih (i + 1)
    · rcases hpre : hasPre arg "--csv" with _ | _
      · by_cases hnod : arg = "--no-display"
        · simp [hpre, hnod, hacc]
        · by_cases hi : i = 2 ∧ hasPre arg "--" = false
          · simp [hpre, hnod, hi, hacc]
          · simp [hpre, hnod, hi, hacc]
      · by_cases heq : hasPre arg "--csv=" = true
        · have harg : arg = "--csv=" := himp heq
          subst harg
          have c2 : ¬(("--csv=" : String) = "--csv") := by decide
          have c3 : hasPre "--csv=" "--csv=" = true := by decide
          have c4 : trimPre "--csv=" "--csv=" = "" := by decide
          simp [hpre, c2, c3, c4]
        · simp [hpre, hne, heq, hacc]
    · exact hrest

/-! Claim theorems. -/

/-- Claim C1: with a source path but no further arguments, the encoding
variable of main keeps its initial value big5, so the decoder selected for
opening the source is the Big5 decoder and not the Win1250 decoder — the
code contradicts the claimed (and usage-text documented) win1250 default. -/
theorem c1_default_decoder_is_big5 :
    (parseArgs "data.dbf" []).encoding = "big5" ∧
    (selectDecoder (parseArgs "data.dbf" []).encoding).1 = Decoder.big5 ∧
    Decoder.big5 ≠ Decoder.win1250 := by
  refine ⟨rfl, rfl, by decide⟩

/-- Claim C3: a fetched record with the deletion flag set is skipped by the
export loop with the state unchanged — no row is written, no log entry is
added, the written-record counter is not incremented, and processing
continues with the next index. -/
theorem c3_deleted_record_skipped (fields : List FieldHeader) (sink : Sink)
    (silent : Bool) (rest : List (Except String Record)) (i : Nat)
    (st : ExportState) (r : Record) (h : r.deleted = true) :
    exportLoop fields sink silent (Except.ok r :: rest) i st =
      exportLoop fields sink silent rest (i + 1) st := by
  simp [exportLoop, h]

/-- Witness for C3 at a concrete deleted record. -/
theorem c3_witness :
    exportLoop [fldI] sinkAllOk false [Except.ok recDel] 0 stHeaderOnlyA =
      exportLoop [fldI] sinkAllOk false [] 1 stHeaderOnlyA :=
  c3_deleted_record_skipped [fldI] sinkAllOk false [] 0 stHeaderOnlyA recDel rfl

/-- Claim C6: under the positional pairing invariant (value count equals
descriptor count) export row construction is total — the descriptor lookup
is in range at every field index and the built row has one formatted entry
per value. -/
theorem c6_row_construction_total (fields : List FieldHeader) (vals : List Value)
    (h : vals.length = fields.length) :
    ∃ row, buildRow fields vals = some row ∧ row.length = vals.length :=
  buildRowAux_total fields vals 0 (by omega)

/-- Witness for C6 at a concrete record and schema. -/
theorem c6_witness :
    ∃ row, buildRow [fldN3] [Value.vint 5] = some row ∧
      row.length = [Value.vint 5].length :=
  c6_row_construction_total [fldN3] [Value.vint 5] rfl

/-- Claim C7: for a Numeric field with positive declared scale the export
formatter renders at the declared scale — the output has exactly one
decimal point, exactly scale-many characters after it, and all of them are
digits. -/
theorem c7_numeric_declared_scale (v : Value) (f : FieldHeader)
    (hft : f.fieldType = "N") (hs : 0 < f.decimals) (hv : v ≠ Value.vnil) :
    dotCount (formatValueForCSV v f) = 1 ∧
    (fracPart (formatValueForCSV v f)).length = f.decimals ∧
    ∀ c ∈ fracPart (formatValueForCSV v f), c.isDigit = true := by
  have hred : formatValueForCSV v f = formatFloatFixed (ToFloat64 v) f.decimals := by
    unfold formatValueForCSV
    rw [if_neg hv, hft]
    rw [if_neg (by decide : ¬("N" : String) = "C")]
    rw [if_pos rfl]
    rw [if_neg (by omega : ¬ f.decimals = 0)]
  rw [hred]
  exact formatFloatFixed_shape (ToFloat64 v) f.decimals hs

/-- Witness for C7 at scale three (in particular not the hardcoded two). -/
theorem c7_witness :
    dotCount (formatValueForCSV valF fldN3) = 1 ∧
    (fracPart (formatValueForCSV valF fldN3)).length = fldN3.decimals ∧
    ∀ c ∈ fracPart (formatValueForCSV valF fldN3), c.isDigit = true :=
  c7_numeric_declared_scale valF fldN3 rfl (by decide) (by decide)

/-- Claim C9: the export formatter is total over the value and descriptor
universe — a nil value always maps to the empty string, and a non-nil value
under an unrecognized type tag takes the generic fallback
stringification. -/
theorem c9_formatter_total :
    (∀ f : FieldHeader, formatValueForCSV Value.vnil f = "") ∧
    (∀ (v : Value) (f : FieldHeader), v ≠ Value.vnil → f.fieldType ∉ knownTags →
      formatValueForCSV v f = sprintfV v) := by
  constructor
  · intro f
    simp [formatValueForCSV]
  · intro v f hv ht
    simp only [knownTags, List.mem_cons, List.not_mem_nil, or_false, not_or] at ht
    obtain ⟨h1, h2, h3, h4, h5, h6, h7, h8, h9, h10⟩ := ht
    unfold formatValueForCSV
    rw [if_neg hv, if_neg h1, if_neg h2, if_neg h3, if_neg h4, if_neg h5,
      if_neg h6, if_neg h7, if_neg h8, if_neg h9, if_neg h10]

/-- Witness for C9: nil under a known tag, and a boolean under the
unrecognized tag Z. -/
theorem c9_witness :
    formatValueForCSV Value.vnil fldZ = "" ∧
    formatValueForCSV (Value.vbool true) fldZ = sprintfV (Value.vbool true) :=
  ⟨c9_formatter_total.1 fldZ,
   c9_formatter_total.2 (Value.vbool true) fldZ (by decide) (by decide)⟩

/-- Claim C10: an argument equal to the csv flag with equals sign but empty
path, or beginning with the csv flag text without being exactly the flag or
an equals form, leaves the csv output path empty; main attempts CSV export
exactly when that path is nonempty, so such arguments silently disable
export. -/
theorem c10_degenerate_csv_args (dbfFile : String) (args : List String)
    (h : ∀ arg ∈ args, arg ≠ "--csv" ∧ (hasPre arg "--csv=" = true → arg = "--csv=")) :
    (parseArgs dbfFile args).csvOutput = "" ∧
    csvRequested (parseArgs dbfFile args) = false := by
  have hempty := parseArgsLoop_keeps_empty dbfFile args 2
    { encoding := "big5", csvOutput := "", noDisplay := false } rfl h
  constructor
  · exact hempty
  · simp only [csvRequested, parseArgs] at *
    rw [hempty]
    decide

/-- Witness for C10 at the empty-path form and a stray spelling. -/
theorem c10_witness :
    (parseArgs "test.dbf" ["--csv=", "--csvx"]).csvOutput = "" ∧
    csvRequested (parseArgs "test.dbf" ["--csv=", "--csvx"]) = false :=
  c10_degenerate_csv_args "test.dbf" ["--csv=", "--csvx"] (by decide)

/-- Claim C2 counterexample: exporting a source whose single record is
deleted succeeds with zero rows counted as written, yet the count the
caller reports on success is the total record count one — the reported
count is not the count of rows successfully written. -/
theorem c2_counterexample :
    (exportToCSV dbfOneDeleted sinkAllOk false).2 = none ∧
    (exportToCSV dbfOneDeleted sinkAllOk false).1.processed = 0 ∧
    (exportToCSV dbfOneDeleted sinkAllOk false).1.written = [["A"]] ∧
    mainSuccessCount dbfOneDeleted = 1 ∧
    mainSuccessCount dbfOneDeleted ≠
      (exportToCSV dbfOneDeleted sinkAllOk false).1.processed := by
  refine ⟨rfl, rfl, rfl, rfl, by decide⟩

/-- Claim C2 amended: the export operation returns only an optional fatal
error; its internal counter of written rows equals the sink contents minus
the header, but on success the caller reports the source's total record
count, not that counter. -/
theorem c2_amended_no_count_returned (d : DBF) (sink : Sink) (silent : Bool)
    (h : (exportToCSV d sink silent).2 = none) :
    mainSuccessCount d = numRecords d ∧
    (exportToCSV d sink silent).1.written.length =
      (exportToCSV d sink silent).1.processed + 1 := by
  refine ⟨rfl, ?_⟩
  rcases hw : sink.writeErr 0 with _ | e
  · have hinv := exportLoop_written_processed d.fields sink silent d.recs 0
      { written := [fieldNames d], processed := 0, logs := [], writeCalls := 1 }
    simp only [exportToCSV, hw]
    simp only [List.length_cons, List.length_nil] at hinv
    omega
  · rw [show (exportToCSV d sink silent).2 =
        some (ExportErr.headerWrite e) from by simp [exportToCSV, hw]] at h
    exact absurd h (by simp)

/-- Witness for the amended C2 at a successful concrete export. -/
theorem c2_amended_witness :
    mainSuccessCount dbfOneDeleted = numRecords dbfOneDeleted ∧
    (exportToCSV dbfOneDeleted sinkAllOk false).1.written.length =
      (exportToCSV dbfOneDeleted sinkAllOk false).1.processed + 1 :=
  c2_amended_no_count_returned dbfOneDeleted sinkAllOk false rfl

/-- Claim C4: if record fetch fails at exactly one index, every other index
yields a record, no sink write fails, and records respect the positional
pairing invariant, then the export finishes without a fatal error and the
number of rows written is the total record count minus one, further reduced
by the number of deleted records — the failing index contributes no row and
does not abort the loop. -/
theorem c4_fetch_failure_tolerated (d : DBF) (sink : Sink) (silent : Bool)
    (pre post : List (Except String Record)) (e : String)
    (hdec : d.recs = pre ++ Except.error e :: post)
    (hpre : ∀ x ∈ pre, isFetchErr x = false)
    (hpost : ∀ x ∈ post, isFetchErr x = false)
    (hsink : ∀ n, sink.writeErr n = none)
    (hlen : ∀ r, Except.ok r ∈ d.recs → r.fieldSlice.length = d.fields.length) :
    (exportToCSV d sink silent).2 = none ∧
    (exportToCSV d sink silent).1.processed + List.countP isDeleted d.recs + 1 =
      numRecords d := by
  have hrows : ∀ r, Except.ok r ∈ d.recs →
      (buildRow d.fields r.fieldSlice).isSome = true :=
    fun r hr => buildRow_isSome (hlen r hr)
  have hloop := exportLoop_all_ok d.fields sink silent hsink d.recs 0
    { written := [fieldNames d], processed := 0, logs := [], writeCalls := 1 } hrows
  have hpart := count_partition d.recs
  have herr : List.countP isFetchErr d.recs = 1 := by
    rw [hdec, List.countP_append, List.countP_cons]
    have h0 : List.countP isFetchErr pre = 0 :=
      List.countP_eq_zero.mpr (by intro a ha; simp [hpre a ha])
    have h1 : List.countP isFetchErr post = 0 :=
      List.countP_eq_zero.mpr (by intro a ha; simp [hpost a ha])
    simp [h0, h1, isFetchErr]
  simp only [exportToCSV, hsink 0]
  refine ⟨hloop.1, ?_⟩
  have hp : (exportLoop d.fields sink silent d.recs 0
      { written := [fieldNames d], processed := 0, logs := [],
        writeCalls := 1 }).1.processed = 0 + List.countP isLive d.recs :=
    hloop.2.1
  simp only [numRecords]
  omega

/-- Witness for C4 at a concrete source with one good, one corrupt, and one
deleted record. -/
theorem c4_witness :
    (exportToCSV dbfOneBad sinkAllOk false).2 = none ∧
    (exportToCSV dbfOneBad sinkAllOk false).1.processed +
      List.countP isDeleted dbfOneBad.recs + 1 = numRecords dbfOneBad :=
  c4_fetch_failure_tolerated dbfOneBad sinkAllOk false
    [Except.ok recLive1] [Except.ok recDel] "corrupt" rfl
    (by intro x hx; simp at hx; subst hx; rfl)
    (by intro x hx; simp at hx; subst hx; rfl)
    (fun _ => rfl)
    (by intro r hr
        simp [dbfOneBad] at hr
        rcases hr with h | h <;> subst h <;> rfl)

/-- Claim C5: a failing sink write is fatal and propagates — a header write
failure aborts at once with the header-write error and an empty sink, and
when the first failing write call is number m the export stops with the
row-write error of the record being written, exactly the m earlier
successful writes remain in the sink (no rollback), and exactly m minus one
records were processed, none after the failure. -/
theorem c5_write_failure_aborts (d : DBF) (sink : Sink) (silent : Bool)
    (hlen : ∀ r, Except.ok r ∈ d.recs → r.fieldSlice.length = d.fields.length) :
    (∀ e, sink.writeErr 0 = some e →
      exportToCSV d sink silent =
        ({ written := [], processed := 0, logs := [], writeCalls := 0 },
         some (ExportErr.headerWrite e))) ∧
    (∀ m e, 1 ≤ m → (∀ n, n < m → sink.writeErr n = none) →
      sink.writeErr m = some e → m - 1 < List.countP isLive d.recs →
      ∃ k, (exportToCSV d sink silent).2 = some (ExportErr.rowWrite k e) ∧
        (exportToCSV d sink silent).1.written.length = m ∧
        (exportToCSV d sink silent).1.processed = m - 1) := by
  have hrows : ∀ r, Except.ok r ∈ d.recs →
      (buildRow d.fields r.fieldSlice).isSome = true :=
    fun r hr => buildRow_isSome (hlen r hr)
  constructor
  · intro e he
    simp [exportToCSV, he]
  · intro m e hm hnone hfail hlive
    have h0 : sink.writeErr 0 = none := hnone 0 (by omega)
    obtain ⟨k, hk1, hk2, hk3⟩ := exportLoop_write_fail d.fields sink silent m e
      hnone hfail d.recs 0
      { written := [fieldNames d], processed := 0, logs := [], writeCalls := 1 }
      hrows (show 1 ≤ m from hm)
      (show m - 1 < List.countP isLive d.recs from hlive)
    have hk2b : (exportLoop d.fields sink silent d.recs 0
        { written := [fieldNames d], processed := 0, logs := [],
          writeCalls := 1 }).1.written.length =
        [fieldNames d].length + (m - 1) := hk2
    have hk3b : (exportLoop d.fields sink silent d.recs 0
        { written := [fieldNames d], processed := 0, logs := [],
          writeCalls := 1 }).1.processed = 0 + (m - 1) := hk3
    simp only [List.length_cons, List.length_nil] at hk2b
    refine ⟨k, ?_, ?_, ?_⟩
    · simp only [exportToCSV, h0]
      exact hk1
    · simp only [exportToCSV, h0]
      omega
    · simp only [exportToCSV, h0]
      omega

/-- Witness for C5: header failure on one sink, first-row failure on
another, over a two-record source. -/
theorem c5_witness :
    (exportToCSV dbfTwoLive sinkFailHeader false =
      ({ written := [], processed := 0, logs := [], writeCalls := 0 },
       some (ExportErr.headerWrite "disk full"))) ∧
    (∃ k, (exportToCSV dbfTwoLive sinkFailRow1 false).2 =
        some (ExportErr.rowWrite k "disk full") ∧
      (exportToCSV dbfTwoLive sinkFailRow1 false).1.written.length = 1 ∧
      (exportToCSV dbfTwoLive sinkFailRow1 false).1.processed = 1 - 1) := by
  have hlen5 : ∀ r, Except.ok r ∈ dbfTwoLive.recs →
      r.fieldSlice.length = dbfTwoLive.fields.length := by
    intro r hr
    simp [dbfTwoLive] at hr
    rcases hr with h | h <;> subst h <;> rfl
  constructor
  · exact (c5_write_failure_aborts dbfTwoLive sinkFailHeader false hlen5).1
      "disk full" rfl
  · exact (c5_write_failure_aborts dbfTwoLive sinkFailRow1 false hlen5).2
      1 "disk full" (by omega)
      (by intro n hn
          have : n = 0 := by omega
          subst this
          rfl)
      rfl (by decide)

/-- Claim C8: for Date and DateTime fields a zero timestamp exports as the
empty string — never the formatted sentinel date — a non-zero timestamp
exports in the date or date-time layout, and with in-range calendar
components those layouts have the ten-character YYYY-MM-DD and the
nineteen-character YYYY-MM-DD HH:MM:SS shapes. -/
theorem c8_date_empty_or_layout (v : Value) (t : GoTime) (f : FieldHeader)
    (hv : v = Value.vtime t) :
    (f.fieldType = "D" →
      formatValueForCSV v f = (if t.isZero then "" else formatDate t)) ∧
    (f.fieldType = "T" →
      formatValueForCSV v f = (if t.isZero then "" else formatDateTime t)) ∧
    (f.fieldType = "D" → t.isZero = true →
      formatValueForCSV v f = "" ∧ formatValueForCSV v f ≠ formatDate t) ∧
    (t.year < 10000 → t.month < 100 → t.day < 100 →
      (formatDate t).length = 10) ∧
    (t.year < 10000 → t.month < 100 → t.day < 100 → t.hour < 100 →
      t.minute < 100 → t.second < 100 → (formatDateTime t).length = 19) := by
  have hvnil : ¬ v = Value.vnil := by
    rw [hv]
    simp
  have htt : ToTime v = t := by
    rw [hv]
    rfl
  have hD : f.fieldType = "D" →
      formatValueForCSV v f = (if t.isZero then "" else formatDate t) := by
    intro hft
    unfold formatValueForCSV
    rw [if_neg hvnil, hft]
    rw [if_neg (by decide : ¬("D" : String) = "C")]
    rw [if_neg (by decide : ¬("D" : String) = "N")]
    rw [if_neg (by decide : ¬("D" : String) = "F")]
    rw [if_neg (by decide : ¬("D" : String) = "L")]
    rw [if_pos rfl, htt]
  have hT : f.fieldType = "T" →
      formatValueForCSV v f = (if t.isZero then "" else formatDateTime t) := by
    intro hft
    unfold formatValueForCSV
    rw [if_neg hvnil, hft]
    rw [if_neg (by decide : ¬("T" : String) = "C")]
    rw [if_neg (by decide : ¬("T" : String) = "N")]
    rw [if_neg (by decide : ¬("T" : String) = "F")]
    rw [if_neg (by decide : ¬("T" : String) = "L")]
    rw [if_neg (by decide : ¬("T" : String) = "D")]
    rw [if_pos rfl, htt]
  have hDateLen : (formatDate t).length =
      (padNat 4 t.year).length + 1 + ((padNat 2 t.month).length + 1 +
        (padNat 2 t.day).length) := by
    simp only [formatDate, length_mk, List.length_append, List.length_cons]
    omega
  refine ⟨hD, hT, ?_, ?_, ?_⟩
  · intro hft hz
    have h1 : formatValueForCSV v f = "" := by
      rw [hD hft, if_pos hz]
    refine ⟨h1, ?_⟩
    rw [h1]
    intro habs
    have hlen1 : (formatDate t).length = 0 := by
      rw [← habs]
      rfl
    have hge : 1 ≤ (padNat 4 t.year).length + 1 + ((padNat 2 t.month).length + 1 +
        (padNat 2 t.day).length) := by omega
    omega
  · intro hy hm hd
    have p1 := padNat_length (w := 4) (n := t.year) (by omega) (by omega)
    have p2 := padNat_length (w := 2) (n := t.month) (by omega) (by omega)
    have p3 := padNat_length (w := 2) (n := t.day) (by omega) (by omega)
    omega
  · intro hy hm hd hh hmi hs
    have p1 := padNat_length (w := 4) (n := t.year) (by omega) (by omega)
    have p2 := padNat_length (w := 2) (n := t.month) (by omega) (by omega)
    have p3 := padNat_length (w := 2) (n := t.day) (by omega) (by omega)
    have p4 := padNat_length (w := 2) (n := t.hour) (by omega) (by omega)
    have p5 := padNat_length (w := 2) (n := t.minute) (by omega) (by omega)
    have p6 := padNat_length (w := 2) (n := t.second) (by omega) (by omega)
    simp only [formatDateTime, length_mk, List.length_append, List.length_cons]
    omega

/-- Witness for C8 at a concrete non-zero date under a Date field. -/
theorem c8_witness :
    ((fldD.fieldType = "D" →
      formatValueForCSV (Value.vtime tMar7) fldD =
        (if tMar7.isZero then "" else formatDate tMar7)) ∧
    (fldD.fieldType = "T" →
      formatValueForCSV (Value.vtime tMar7) fldD =
        (if tMar7.isZero then "" else formatDateTime tMar7)) ∧
    (fldD.fieldType = "D" → tMar7.isZero = true →
      formatValueForCSV (Value.vtime tMar7) fldD = "" ∧
      formatValueForCSV (Value.vtime tMar7) fldD ≠ formatDate tMar7) ∧
    (tMar7.year < 10000 → tMar7.month < 100 → tMar7.day < 100 →
      (formatDate tMar7).length = 10) ∧
    (tMar7.year < 10000 → tMar7.month < 100 → tMar7.day < 100 →
      tMar7.hour < 100 → tMar7.minute < 100 → tMar7.second < 100 →
      (formatDateTime tMar7).length = 19)) :=
  c8_date_empty_or_layout (Value.vtime tMar7) tMar7 fldD rfl

end DbfReader
